import Mathlib

/-
Verification model of the WhisperWire server core.

Shallow embedding of:
- src/server/src/models/ChannelManager.js   (ChannelManager, ClientManager)
- src/server/src/media/mediasoupManager.js  (MediasoupManager state)
- src/server/src/socket/socketHandler.js    (signaling request handlers)
- src/server/src/utils/auth.js              (authenticateClient)

Modelling conventions:
- Opaque string identifiers (uuids, socket ids, transport/producer/consumer
  ids) are modelled as Nat; the JS code only compares them for equality.
- JS `Map` objects are modelled as association lists (`List (Nat × _)`)
  that preserve insertion order; `Map.set` replaces the first entry with
  the given key in place or appends a new entry, `Map.delete` removes the
  first entry with the key, matching JS Map semantics for unique keys.
- JS `Set` objects are lists with add-if-absent.
- JS numbers used for volumes are modelled as rationals.
- Fresh uuids produced by `uuidv4()` are passed in as explicit parameters
  (for the channel registry, drawn from a counter, since channel creation
  is the only id generation a claim quantifies over sequences of).
-/

deriving instance DecidableEq for Except

namespace WhisperWire

/-! ## Association-list model of JS `Map` -/

def assocLookup {α : Type} (l : List (Nat × α)) (k : Nat) : Option α :=
  match l with
  | [] => none
  | (k', v) :: t => if k' = k then some v else assocLookup t k

def assocInsert {α : Type} (l : List (Nat × α)) (k : Nat) (v : α) : List (Nat × α) :=
  match l with
  | [] => [(k, v)]
  | (k', v') :: t => if k' = k then (k, v) :: t else (k', v') :: assocInsert t k v

def assocErase {α : Type} (l : List (Nat × α)) (k : Nat) : List (Nat × α) :=
  match l with
  | [] => []
  | (k', v') :: t => if k' = k then t else (k', v') :: assocErase t k

/-- JS `Set.add`: append the element when it is not yet present. -/
def setAdd (l : List Nat) (x : Nat) : List Nat :=
  if x ∈ l then l else l ++ [x]

/-! ## Client registry (ClientManager.js) -/

structure ChannelSettings where
  muted : Bool
  volume : ℚ
deriving DecidableEq, Repr

structure Permissions where
  speakToAll : Bool
  listenToAll : Bool
  speakTo : List (Nat × Bool)
  listenTo : List (Nat × Bool)
deriving DecidableEq, Repr

structure Client where
  id : Nat
  name : String
  socketId : Option Nat
  isAdmin : Bool
  channels : List Nat
  permissions : Permissions
  channelSettings : List (Nat × ChannelSettings)
deriving DecidableEq, Repr

structure PendingClient where
  id : Nat
  name : String
  socketId : Option Nat
deriving DecidableEq, Repr

structure ClientManager where
  clients : List (Nat × Client)
  pendingClients : List (Nat × PendingClient)
deriving DecidableEq, Repr

def ClientManager.empty : ClientManager := ⟨[], []⟩

/-- Permissions object supplied by the admin on `authorizeClient`; JS fields
may be absent (`undefined`), hence `Option`. -/
structure AuthPerms where
  isAdmin : Option Bool
  speakToAll : Option Bool
  listenToAll : Option Bool
  speakTo : Option (List (Nat × Bool))
  listenTo : Option (List (Nat × Bool))
deriving DecidableEq, Repr

/-- `ClientManager.addPendingClient`. -/
def ClientManager.addPendingClient (m : ClientManager) (freshClientId socketId : Nat)
    (name : String) : ClientManager :=
  { m with pendingClients :=
      assocInsert m.pendingClients freshClientId ⟨freshClientId, name, some socketId⟩ }

/-- Default per-channel user settings seeded on authorization and on joining
a channel: `{ muted: false, volume: 1.0 }`. -/
def defaultSettings : ChannelSettings := ⟨false, 1⟩

/-- `ClientManager.authorizeClient`: moves a pending client to the active
clients map, defaulting missing permission fields (`|| false`, `|| {}`) and
seeding per-channel settings for each assigned channel. -/
def ClientManager.authorizeClient (m : ClientManager) (clientId : Nat)
    (channels : Option (List Nat)) (perms : AuthPerms) : ClientManager × Bool :=
  match assocLookup m.pendingClients clientId with
  | none => (m, false)
  | some pending =>
    let chs := channels.getD []
    let client : Client :=
      { id := clientId
        name := pending.name
        socketId := pending.socketId
        isAdmin := perms.isAdmin.getD false
        channels := chs
        permissions :=
          { speakToAll := perms.speakToAll.getD false
            listenToAll := perms.listenToAll.getD false
            speakTo := perms.speakTo.getD []
            listenTo := perms.listenTo.getD [] }
        channelSettings := chs.foldl (fun s ch => assocInsert s ch defaultSettings) [] }
    ({ m with clients := assocInsert m.clients clientId client
              pendingClients := assocErase m.pendingClients clientId }, true)

/-- `ClientManager.addClientToChannel`. -/
def ClientManager.addClientToChannel (m : ClientManager) (clientId channelId : Nat) :
    ClientManager × Bool :=
  match assocLookup m.clients clientId with
  | none => (m, false)
  | some client =>
    if channelId ∈ client.channels then (m, false)
    else
      let settings :=
        if (assocLookup client.channelSettings channelId).isSome then client.channelSettings
        else assocInsert client.channelSettings channelId defaultSettings
      let client' := { client with
        channels := client.channels ++ [channelId]
        channelSettings := settings }
      ({ m with clients := assocInsert m.clients clientId client' }, true)

/-- `ClientManager.removeClientFromChannel`: `splice(indexOf, 1)` removes the
first occurrence; the channel's settings entry is deleted. -/
def ClientManager.removeClientFromChannel (m : ClientManager) (clientId channelId : Nat) :
    ClientManager × Bool :=
  match assocLookup m.clients clientId with
  | none => (m, false)
  | some client =>
    if channelId ∈ client.channels then
      let client' := { client with
        channels := client.channels.erase channelId
        channelSettings := assocErase client.channelSettings channelId }
      ({ m with clients := assocInsert m.clients clientId client' }, true)
    else (m, false)

/-- `ClientManager.canSpeak`. -/
def ClientManager.canSpeak (m : ClientManager) (clientId channelId : Nat) : Bool :=
  match assocLookup m.clients clientId with
  | none => false
  | some client =>
    if channelId ∉ client.channels then false
    else if client.permissions.speakToAll then true
    else (assocLookup client.permissions.speakTo channelId).getD false

/-- `ClientManager.canListen`. -/
def ClientManager.canListen (m : ClientManager) (clientId channelId : Nat) : Bool :=
  match assocLookup m.clients clientId with
  | none => false
  | some client =>
    if channelId ∉ client.channels then false
    else if client.permissions.listenToAll then true
    else (assocLookup client.permissions.listenTo channelId).getD false

/-- `ClientManager.setChannelVolume`: clamps with
`Math.max(0, Math.min(1, volume))`. -/
def ClientManager.setChannelVolume (m : ClientManager) (clientId channelId : Nat)
    (volume : ℚ) : ClientManager × Bool :=
  match assocLookup m.clients clientId with
  | none => (m, false)
  | some client =>
    match assocLookup client.channelSettings channelId with
    | none => (m, false)
    | some settings =>
      let normalizedVolume := max 0 (min 1 volume)
      let settings' := { settings with volume := normalizedVolume }
      let client' := { client with
        channelSettings := assocInsert client.channelSettings channelId settings' }
      ({ m with clients := assocInsert m.clients clientId client' }, true)

/-- Permission patch for `updateClientPermissions`; `none` models an absent
(`undefined`) field. -/
structure PermPatch where
  speakToAll : Option Bool
  listenToAll : Option Bool
  speakTo : Option (List (Nat × Bool))
  listenTo : Option (List (Nat × Bool))
deriving DecidableEq, Repr

/-- JS object spread `{...old, ...patch}`: keys of the patch override, other
keys keep their previous value. -/
def mergeAssoc {α : Type} (old patch : List (Nat × α)) : List (Nat × α) :=
  patch.foldl (fun acc e => assocInsert acc e.1 e.2) old

/-- The body of `updateClientPermissions`: `speakToAll`/`listenToAll` are
overwritten only when not `undefined`; `speakTo`/`listenTo` are spread-merged
when present. -/
def applyPermPatch (perms0 : Permissions) (p : PermPatch) : Permissions :=
  let perms := perms0
  let perms := match p.speakToAll with
    | some b => { perms with speakToAll := b }
    | none => perms
  let perms := match p.listenToAll with
    | some b => { perms with listenToAll := b }
    | none => perms
  let perms := match p.speakTo with
    | some pm => { perms with speakTo := mergeAssoc perms.speakTo pm }
    | none => perms
  match p.listenTo with
  | some pm => { perms with listenTo := mergeAssoc perms.listenTo pm }
  | none => perms

/-- `ClientManager.updateClientPermissions`. -/
def ClientManager.updateClientPermissions (m : ClientManager) (clientId : Nat)
    (p : PermPatch) : ClientManager × Bool :=
  match assocLookup m.clients clientId with
  | none => (m, false)
  | some client =>
    let perms := applyPermPatch client.permissions p
    ({ m with clients := assocInsert m.clients clientId { client with permissions := perms } },
     true)

/-- `ClientManager.getClientBySocketId`: first client whose `socketId`
strictly equals the given one. -/
def ClientManager.getClientBySocketId (m : ClientManager) (socketId : Nat) : Option Client :=
  (m.clients.find? (fun e => e.2.socketId == some socketId)).map (·.2)

/-- `ClientManager.isAdmin`: `client && client.isAdmin`. -/
def ClientManager.isAdmin (m : ClientManager) (socketId : Nat) : Bool :=
  match m.getClientBySocketId socketId with
  | none => false
  | some client => client.isAdmin

/-! ## Channel registry (ChannelManager.js) -/

structure Channel where
  id : Nat
  name : String
  description : String
  clients : List Nat
  producers : List Nat
deriving DecidableEq, Repr

/-- `nextId` models the `uuidv4()` supply: each created channel receives a
fresh identifier. -/
structure ChannelManager where
  nextId : Nat
  channels : List (Nat × Channel)
deriving DecidableEq, Repr

/-- `ChannelManager.createChannel`. -/
def ChannelManager.createChannel (m : ChannelManager) (name description : String) :
    ChannelManager × Nat :=
  let channelId := m.nextId
  ({ nextId := m.nextId + 1
     channels := assocInsert m.channels channelId
       ⟨channelId, name, description, [], []⟩ }, channelId)

/-- The `ChannelManager` constructor creates the System channel. -/
def ChannelManager.initial : ChannelManager :=
  (ChannelManager.createChannel ⟨0, []⟩ "System"
    "System-wide announcements and notifications").1

/-- JS `if (updates.name) channel.name = updates.name`: the field is applied
only when truthy (present and nonempty). -/
def jsStringOverride (old : String) (upd : Option String) : String :=
  match upd with
  | none => old
  | some s => if s = "" then old else s

/-- `ChannelManager.updateChannel`. -/
def ChannelManager.updateChannel (m : ChannelManager) (channelId : Nat)
    (name description : Option String) : ChannelManager × Bool :=
  match assocLookup m.channels channelId with
  | none => (m, false)
  | some channel =>
    let channel' := { channel with
      name := jsStringOverride channel.name name
      description := jsStringOverride channel.description description }
    ({ m with channels := assocInsert m.channels channelId channel' }, true)

/-- `ChannelManager.deleteChannel`: refuses when the target is currently
named `"System"` (`channels.get(id)?.name === 'System'`); otherwise
`Map.delete`, reporting whether an entry existed. -/
def ChannelManager.deleteChannel (m : ChannelManager) (channelId : Nat) :
    ChannelManager × Bool :=
  if (assocLookup m.channels channelId).map Channel.name = some "System" then (m, false)
  else ({ m with channels := assocErase m.channels channelId },
        (assocLookup m.channels channelId).isSome)

/-- `ChannelManager.addProducerToChannel`. -/
def ChannelManager.addProducerToChannel (m : ChannelManager) (channelId producerId : Nat) :
    ChannelManager × Bool :=
  match assocLookup m.channels channelId with
  | none => (m, false)
  | some channel =>
    let channel' := { channel with producers := setAdd channel.producers producerId }
    ({ m with channels := assocInsert m.channels channelId channel' }, true)

/-- One admin operation on the channel registry, as reachable through the
signaling and HTTP surfaces. -/
inductive ChanOp where
  | create (name description : String)
  | update (channelId : Nat) (name description : Option String)
  | delete (channelId : Nat)
deriving DecidableEq, Repr

def applyChanOp (m : ChannelManager) : ChanOp → ChannelManager
  | .create n d => (m.createChannel n d).1
  | .update cid n d => (m.updateChannel cid n d).1
  | .delete cid => (m.deleteChannel cid).1

/-- State of the channel registry after a sequence of admin operations,
starting from the constructor state. -/
def runChanOps (ops : List ChanOp) : ChannelManager :=
  ops.foldl applyChanOp ChannelManager.initial

def hasSystemChannel (m : ChannelManager) : Bool :=
  m.channels.any (fun e => e.2.name == "System")

/-- An update operation that supplies a (truthy or empty) new name. -/
def ChanOp.isRename : ChanOp → Bool
  | .update _ (some _) _ => true
  | _ => false

/-! ## Media worker state (mediasoupManager.js) -/

inductive SErr where
  | transportNotFound
  | producerNotFound
  | cannotConsume
  | unauthorized
deriving DecidableEq, Repr

structure MConsumer where
  id : Nat
  producerId : Nat
  transportId : Nat
deriving DecidableEq, Repr

structure MediaState where
  transports : List Nat
  producers : List Nat
  consumers : List MConsumer
deriving DecidableEq, Repr

/-- `MediasoupManager.produce`: requires only that the transport exists; the
fresh producer id is stored unconditionally. -/
def MediaState.produce (ms : MediaState) (transportId freshProducerId : Nat) :
    Except SErr (MediaState × Nat) :=
  if transportId ∈ ms.transports then
    .ok ({ ms with producers := setAdd ms.producers freshProducerId }, freshProducerId)
  else .error .transportNotFound

/-- `MediasoupManager.consume`: requires the transport and producer to exist
and `router.canConsume` (an external codec check, passed as a flag); no other
condition. -/
def MediaState.consume (ms : MediaState) (transportId producerId : Nat)
    (canConsume : Bool) (freshConsumerId : Nat) : Except SErr (MediaState × MConsumer) :=
  if transportId ∉ ms.transports then .error .transportNotFound
  else if producerId ∉ ms.producers then .error .producerNotFound
  else if !canConsume then .error .cannotConsume
  else
    let consumer : MConsumer := ⟨freshConsumerId, producerId, transportId⟩
    .ok ({ ms with consumers := consumer :: ms.consumers }, consumer)

/-- `MediasoupManager.createWebRtcTransport`: always stores a fresh transport. -/
def MediaState.createWebRtcTransport (ms : MediaState) (freshTransportId : Nat) :
    MediaState × Nat :=
  ({ ms with transports := ms.transports ++ [freshTransportId] }, freshTransportId)

/-- `MediasoupManager.connectWebRtcTransport`. -/
def MediaState.connectWebRtcTransport (ms : MediaState) (transportId : Nat) :
    Except SErr Unit :=
  if transportId ∈ ms.transports then .ok () else .error .transportNotFound

/-! ## Signaling handlers (socketHandler.js) -/

structure ServerState where
  channelMgr : ChannelManager
  clientMgr : ClientManager
  media : MediaState
deriving DecidableEq, Repr

/-- The registration loop in `socket.on('produce')`: for each of the client's
channels with speak permission, add the producer id to that channel. -/
def registerProducer (st : ServerState) (client : Client) (producerId : Nat) : ServerState :=
  let cm := client.channels.foldl
    (fun cm channelId =>
      if st.clientMgr.canSpeak client.id channelId then
        (cm.addProducerToChannel channelId producerId).1
      else cm)
    st.channelMgr
  { st with channelMgr := cm }

/-- `socket.on('produce')`: produces on the media worker first, then (if a
client record matches the socket) registers the producer into the client's
speak-permitted channels. No session-state or permission gate precedes the
media call. -/
def produceHandler (st : ServerState) (socketId transportId freshProducerId : Nat) :
    ServerState × Except SErr Nat :=
  match st.media.produce transportId freshProducerId with
  | .error e => (st, .error e)
  | .ok (ms, producerId) =>
    let st' := { st with media := ms }
    match st'.clientMgr.getClientBySocketId socketId with
    | none => (st', .ok producerId)
    | some client => (registerProducer st' client producerId, .ok producerId)

/-- `socket.on('consume')`: forwards directly to the media worker; the session
identity is not consulted. -/
def consumeHandler (st : ServerState) ( socketId : Nat) (transportId producerId : Nat)
    (canConsume : Bool) (freshConsumerId : Nat) : ServerState × Except SErr MConsumer :=
  let _ := socketId
  match st.media.consume transportId producerId canConsume freshConsumerId with
  | .error e => (st, .error e)
  | .ok (ms, consumer) => ({ st with media := ms }, .ok consumer)

/-- `socket.on('getRouterRtpCapabilities')`: always answers successfully. -/
def rtpCapabilitiesHandler (st : ServerState) : ServerState × Except SErr Unit :=
  (st, .ok ())

/-- `socket.on('createWebRtcTransport')`. -/
def createTransportHandler (st : ServerState) (freshTransportId : Nat) :
    ServerState × Except SErr Nat :=
  let (ms, tid) := st.media.createWebRtcTransport freshTransportId
  ({ st with media := ms }, .ok tid)

/-- `socket.on('connectWebRtcTransport')`. -/
def connectTransportHandler (st : ServerState) (transportId : Nat) :
    ServerState × Except SErr Unit :=
  (st, st.media.connectWebRtcTransport transportId)

/-- `socket.on('createChannel')`: the only gate is the admin check. -/
def createChannelHandler (st : ServerState) (socketId : Nat) (name description : String) :
    ServerState × Except SErr Nat :=
  if st.clientMgr.isAdmin socketId then
    let (cm, cid) := st.channelMgr.createChannel name description
    ({ st with channelMgr := cm }, .ok cid)
  else (st, .error .unauthorized)

/-! ## Authentication (auth.js and socket.on('authenticate')) -/

/-- JS truthiness of a possibly-undefined string. -/
def jsTruthyStr : Option String → Bool
  | none => false
  | some s => s ≠ ""

/-- `authenticateClient` from auth.js: fails closed when
`process.env.SERVER_PASSWORD` is unset (or empty), otherwise compares. -/
def authenticateClient (envServerPassword serverPassword : Option String) : Bool :=
  if !jsTruthyStr envServerPassword then false
  else serverPassword == envServerPassword

/-- The password check in `socket.on('authenticate')`:
`!serverPassword || serverPassword !== process.env.SERVER_PASSWORD` rejects. -/
def authCheckPasses (envServerPassword serverPassword : Option String) : Bool :=
  jsTruthyStr serverPassword && (serverPassword == envServerPassword)

/-- `socket.on('authenticate')`: on success enrolls a pending client; on
failure answers an error and leaves the registry untouched. -/
def authenticateHandler (m : ClientManager) (envServerPassword : Option String)
    (socketId freshClientId : Nat) (clientName : String)
    (serverPassword : Option String) : ClientManager × Bool :=
  if authCheckPasses envServerPassword serverPassword then
    (m.addPendingClient freshClientId socketId clientName, true)
  else (m, false)

/-! ## Concrete sample states -/

/-- A registry of two channels: 0 = System (from the constructor),
1 = "Main". -/
def twoChannelRegistry : ChannelManager :=
  (ChannelManager.initial.createChannel "Main" "Main talk channel").1

/-- A client authorized into channel 1 with no listen permission anywhere. -/
def aliceNoListen : Client :=
  { id := 1, name := "alice", socketId := some 10, isAdmin := false
    channels := [1]
    permissions := { speakToAll := true, listenToAll := false, speakTo := [], listenTo := [] }
    channelSettings := [(1, defaultSettings)] }

/-- A client authorized into channel 1 with no speak permission anywhere. -/
def bobNoSpeak : Client :=
  { id := 2, name := "bob", socketId := some 20, isAdmin := false
    channels := [1]
    permissions := { speakToAll := false, listenToAll := true, speakTo := [], listenTo := [] }
    channelSettings := [(1, defaultSettings)] }

def clientMgrC1 : ClientManager := ⟨[(1, aliceNoListen)], []⟩

def clientMgrC2 : ClientManager := ⟨[(2, bobNoSpeak)], []⟩

/-- Server state for the consume scenario: transport 7 and producer 3 exist,
the requesting session (socket 10) belongs to a client with no listen
permission in any channel. -/
def stConsume : ServerState :=
  { channelMgr := twoChannelRegistry
    clientMgr := clientMgrC1
    media := { transports := [7], producers := [3], consumers := [] } }

/-- Server state for the produce scenario: transport 7 exists, the requesting
session (socket 20) belongs to a client with no speak permission in any
channel. -/
def stProduce : ServerState :=
  { channelMgr := twoChannelRegistry
    clientMgr := clientMgrC2
    media := { transports := [7], producers := [], consumers := [] } }

/-- Server state for a brand-new, unauthenticated session (socket 99 matches
no client and no pending entry): transport 7 exists. -/
def stNewSession : ServerState :=
  { channelMgr := twoChannelRegistry
    clientMgr := ClientManager.empty
    media := { transports := [7], producers := [], consumers := [] } }

/-! ## Association-list lemmas -/

theorem assocLookup_assocInsert {α : Type} (l : List (Nat × α)) (k : Nat) (v : α)
    (k' : Nat) :
    assocLookup (assocInsert l k v) k' = if k = k' then some v else assocLookup l k' := by
  induction l with
  | nil => simp [assocLookup, assocInsert]
  | cons e t ih =>
    obtain ⟨ek, ev⟩ := e
    by_cases hek : ek = k
    · subst hek
      simp only [assocInsert, if_pos rfl]
      by_cases hkk : ek = k'
      · simp [assocLookup, hkk]
      · simp [assocLookup, hkk]
    · simp only [assocInsert, if_neg hek]
      by_cases hkk : ek = k'
      · subst hkk
        have : k ≠ ek := fun h => hek h.symm
        simp [assocLookup, this]
      · simp [assocLookup, hkk, ih]

theorem assocLookup_isSome_iff {α : Type} (l : List (Nat × α)) (k : Nat) :
    (assocLookup l k).isSome ↔ k ∈ l.map Prod.fst := by
  induction l with
  | nil => simp [assocLookup]
  | cons e t ih =>
    obtain ⟨ek, ev⟩ := e
    by_cases hek : ek = k
    · subst hek; simp [assocLookup]
    · have : k ≠ ek := fun h => hek h.symm
      simp [assocLookup, hek, this, ih]

theorem assocLookup_eq_none_iff {α : Type} (l : List (Nat × α)) (k : Nat) :
    assocLookup l k = none ↔ k ∉ l.map Prod.fst := by
  rw [← assocLookup_isSome_iff, Option.isSome_iff_ne_none]
  simp

theorem assocInsert_of_not_mem {α : Type} (l : List (Nat × α)) (k : Nat) (v : α)
    (h : k ∉ l.map Prod.fst) : assocInsert l k v = l ++ [(k, v)] := by
  induction l with
  | nil => simp [assocInsert]
  | cons e t ih =>
    obtain ⟨ek, ev⟩ := e
    simp only [List.map_cons, List.mem_cons] at h
    push_neg at h
    have hek : ek ≠ k := fun hh => h.1 hh.symm
    simp [assocInsert, hek, ih h.2]

theorem mem_assocInsert {α : Type} {l : List (Nat × α)} {k : Nat} {v : α} {e : Nat × α} :
    e ∈ assocInsert l k v → e = (k, v) ∨ e ∈ l := by
  induction l with
  | nil => intro h; simp [assocInsert] at h; exact Or.inl h
  | cons e' t ih =>
    obtain ⟨ek, ev⟩ := e'
    intro h
    by_cases hek : ek = k
    · subst hek
      simp only [assocInsert, if_pos] at h
      rcases List.mem_cons.mp h with h | h
      · exact Or.inl h
      · exact Or.inr (List.mem_cons_of_mem _ h)
    · simp only [assocInsert, if_neg hek] at h
      rcases List.mem_cons.mp h with h | h
      · exact Or.inr (List.mem_cons.mpr (Or.inl h))
      · rcases ih h with h' | h'
        · exact Or.inl h'
        · exact Or.inr (List.mem_cons_of_mem _ h')

theorem mem_assocInsert_of_ne {α : Type} {l : List (Nat × α)} {k : Nat} {v : α}
    {e : Nat × α} (hne : e.1 ≠ k) : e ∈ assocInsert l k v ↔ e ∈ l := by
  induction l with
  | nil =>
    simp only [assocInsert, List.mem_singleton, List.not_mem_nil, iff_false]
    intro h
    exact hne (congrArg Prod.fst h)
  | cons e' t ih =>
    obtain ⟨ek, ev⟩ := e'
    by_cases hek : ek = k
    · subst hek
      have hrw : assocInsert ((ek, ev) :: t) ek v = (ek, v) :: t := by
        simp [assocInsert]
      rw [hrw]
      simp only [List.mem_cons]
      constructor
      · rintro (h | h)
        · exact absurd (congrArg Prod.fst h) hne
        · exact Or.inr h
      · rintro (h | h)
        · exact absurd (congrArg Prod.fst h) hne
        · exact Or.inr h
    · simp [assocInsert, hek, List.mem_cons, ih]

theorem mem_of_mem_assocErase {α : Type} {l : List (Nat × α)} {k : Nat} {e : Nat × α} :
    e ∈ assocErase l k → e ∈ l := by
  induction l with
  | nil => intro h; simp [assocErase] at h
  | cons e' t ih =>
    obtain ⟨ek, ev⟩ := e'
    intro h
    by_cases hek : ek = k
    · subst hek
      simp only [assocErase, if_pos rfl] at h
      exact List.mem_cons_of_mem _ h
    · simp only [assocErase, if_neg hek, List.mem_cons] at h
      rcases h with h | h
      · exact List.mem_cons.mpr (Or.inl h)
      · exact List.mem_cons_of_mem _ (ih h)

theorem mem_assocErase_of_ne {α : Type} {l : List (Nat × α)} {k : Nat} {e : Nat × α}
    (hne : e.1 ≠ k) : e ∈ l → e ∈ assocErase l k := by
  induction l with
  | nil => intro he; simp at he
  | cons e' t ih =>
    obtain ⟨ek, ev⟩ := e'
    intro he
    rcases List.mem_cons.mp he with h | h
    · subst h
      simp only [assocErase]
      rw [if_neg hne]
      exact List.mem_cons_self _ _
    · by_cases hek : ek = k
      · subst hek; simpa [assocErase] using h
      · simp only [assocErase, if_neg hek, List.mem_cons]
        exact Or.inr (ih h)

theorem keys_assocInsert {α : Type} (l : List (Nat × α)) (k : Nat) (v : α) :
    (assocInsert l k v).map Prod.fst =
      if k ∈ l.map Prod.fst then l.map Prod.fst else l.map Prod.fst ++ [k] := by
  induction l with
  | nil => simp [assocInsert]
  | cons e t ih =>
    obtain ⟨ek, ev⟩ := e
    by_cases hek : ek = k
    · subst hek
      simp [assocInsert]
    · have : k ≠ ek := fun h => hek h.symm
      by_cases hk : k ∈ t.map Prod.fst
      · simp [assocInsert, hek, ih, hk, this]
      · simp [assocInsert, hek, ih, hk, this]

theorem keys_assocErase {α : Type} (l : List (Nat × α)) (k : Nat) :
    (assocErase l k).map Prod.fst = (l.map Prod.fst).erase k := by
  induction l with
  | nil => simp [assocErase]
  | cons e t ih =>
    obtain ⟨ek, ev⟩ := e
    by_cases hek : ek = k
    · subst hek
      simp [assocErase, List.erase_cons_head]
    · have : ¬(ek == k) = true := by simpa using hek
      simp [assocErase, hek, List.erase_cons_tail, this, ih]

theorem assocLookup_eq_of_mem_nodup {α : Type} {l : List (Nat × α)} {k : Nat} {v : α}
    (hnd : (l.map Prod.fst).Nodup) : (k, v) ∈ l → assocLookup l k = some v := by
  induction l with
  | nil => intro h; simp at h
  | cons e t ih =>
    obtain ⟨ek, ev⟩ := e
    simp only [List.map_cons, List.nodup_cons] at hnd
    intro h
    rcases List.mem_cons.mp h with h' | h'
    · cases h'
      simp [assocLookup]
    · have hk : ek ≠ k := by
        intro hh
        subst hh
        exact hnd.1 (List.mem_map.mpr ⟨(ek, v), h', rfl⟩)
      simp only [assocLookup, if_neg hk]
      exact ih hnd.2 h'

theorem assocErase_assocInsert_of_none {α : Type} (l : List (Nat × α)) (k : Nat) (v : α)
    (h : assocLookup l k = none) : assocErase (assocInsert l k v) k = l := by
  induction l with
  | nil => simp [assocInsert, assocErase]
  | cons e t ih =>
    obtain ⟨ek, ev⟩ := e
    simp only [assocLookup] at h
    by_cases hek : ek = k
    · simp [hek] at h
    · simp only [if_neg hek] at h
      simp [assocInsert, assocErase, hek, ih h]

theorem assocInsert_self {α : Type} (l : List (Nat × α)) (k : Nat) (v : α)
    (h : assocLookup l k = some v) : assocInsert l k v = l := by
  induction l with
  | nil => simp [assocLookup] at h
  | cons e t ih =>
    obtain ⟨ek, ev⟩ := e
    simp only [assocLookup] at h
    by_cases hek : ek = k
    · subst hek
      rw [if_pos rfl] at h
      injection h with h
      subst h
      simp [assocInsert]
    · simp only [if_neg hek] at h
      simp [assocInsert, hek, ih h]

theorem assocInsert_assocInsert {α : Type} (l : List (Nat × α)) (k : Nat) (v v' : α) :
    assocInsert (assocInsert l k v') k v = assocInsert l k v := by
  induction l with
  | nil => simp [assocInsert]
  | cons e t ih =>
    obtain ⟨ek, ev⟩ := e
    by_cases hek : ek = k
    · subst hek
      simp [assocInsert]
    · simp [assocInsert, hek, ih]

/-! ## Small helper lemmas -/

theorem getD_false_eq_true_iff (o : Option Bool) : o.getD false = true ↔ o = some true := by
  cases o <;> simp

/-! ## Claim C3 -/

/-- C3: for every client registry state, `canSpeak(c, C)` is true iff `c` is a
registered client, a member of `C`, and has `speakToAll` or `speakTo[C]`
set; `canListen` likewise with the listen fields; for an unknown client id
both checks return false. -/
theorem c3_canSpeak_canListen (m : ClientManager) (clientId channelId : Nat) :
    (m.canSpeak clientId channelId = true ↔
      ∃ c, assocLookup m.clients clientId = some c ∧ channelId ∈ c.channels ∧
        (c.permissions.speakToAll = true ∨
          assocLookup c.permissions.speakTo channelId = some true)) ∧
    (m.canListen clientId channelId = true ↔
      ∃ c, assocLookup m.clients clientId = some c ∧ channelId ∈ c.channels ∧
        (c.permissions.listenToAll = true ∨
          assocLookup c.permissions.listenTo channelId = some true)) ∧
    (assocLookup m.clients clientId = none →
      m.canSpeak clientId channelId = false ∧ m.canListen clientId channelId = false) := by
  refine ⟨?_, ?_, ?_⟩
  · cases hc : assocLookup m.clients clientId with
    | none => simp [ClientManager.canSpeak, hc]
    | some c =>
      simp only [ClientManager.canSpeak, hc]
      by_cases hm : channelId ∈ c.channels
      · by_cases hsa : c.permissions.speakToAll
        · simp [hm, hsa]
        · simp [hm, hsa, getD_false_eq_true_iff]
      · simp [hm]
  · cases hc : assocLookup m.clients clientId with
    | none => simp [ClientManager.canListen, hc]
    | some c =>
      simp only [ClientManager.canListen, hc]
      by_cases hm : channelId ∈ c.channels
      · by_cases hla : c.permissions.listenToAll
        · simp [hm, hla]
        · simp [hm, hla, getD_false_eq_true_iff]
      · simp [hm]
  · intro h
    constructor
    · simp [ClientManager.canSpeak, h]
    · simp [ClientManager.canListen, h]

/-- Witness for C3: both checks reject an unknown client id on the empty
registry. -/
theorem c3_witness :
    ClientManager.empty.canSpeak 0 0 = false ∧ ClientManager.empty.canListen 0 0 = false :=
  (c3_canSpeak_canListen ClientManager.empty 0 0).2.2 rfl

/-! ## Claim C5 -/

/-- C5: when `SERVER_PASSWORD` is unset, every authentication attempt fails
for every supplied password value: the socket-side password check rejects,
the `authenticateClient` helper returns false, and the authenticate handler
leaves the registry unchanged and reports failure. -/
theorem c5_unset_secret_fails_closed (m : ClientManager) (socketId freshClientId : Nat)
    (clientName : String) (serverPassword : Option String) :
    authCheckPasses none serverPassword = false ∧
    authenticateClient none serverPassword = false ∧
    authenticateHandler m none socketId freshClientId clientName serverPassword =
      (m, false) := by
  have h1 : authCheckPasses none serverPassword = false := by
    cases serverPassword <;> simp [authCheckPasses, jsTruthyStr]
  refine ⟨h1, ?_, ?_⟩
  · simp [authenticateClient, jsTruthyStr]
  · simp [authenticateHandler, h1]

/-- Witness for C5 at a concrete manager and supplied password. -/
theorem c5_witness :
    authCheckPasses none (some "hunter2") = false ∧
    authenticateClient none (some "hunter2") = false ∧
    authenticateHandler ClientManager.empty none 9 6 "mallory" (some "hunter2") =
      (ClientManager.empty, false) :=
  c5_unset_secret_fails_closed ClientManager.empty 9 6 "mallory" (some "hunter2")

/-! ## Claim C7 -/

/-- C7: for a registered client with settings for channel `C` of which it is
a member, `setChannelVolume` succeeds and stores the requested volume clamped
to `[0, 1]`: negative values store 0, values above 1 store 1, and values
already in `[0, 1]` are stored unchanged (the mute flag is untouched). -/
theorem c7_setChannelVolume_clamps (m : ClientManager) (clientId channelId : Nat)
    (v : ℚ) (c : Client) (s : ChannelSettings)
    (hc : assocLookup m.clients clientId = some c)
    (_hm : channelId ∈ c.channels)
    (hs : assocLookup c.channelSettings channelId = some s) :
    ∃ c', assocLookup (m.setChannelVolume clientId channelId v).1.clients clientId = some c' ∧
      ∃ s', assocLookup c'.channelSettings channelId = some s' ∧
        s'.muted = s.muted ∧
        0 ≤ s'.volume ∧ s'.volume ≤ 1 ∧
        (v < 0 → s'.volume = 0) ∧
        (1 < v → s'.volume = 1) ∧
        (0 ≤ v → v ≤ 1 → s'.volume = v) ∧
        (m.setChannelVolume clientId channelId v).2 = true := by
  simp only [ClientManager.setChannelVolume, hc, hs]
  refine ⟨{ c with channelSettings := assocInsert c.channelSettings channelId ⟨s.muted, max 0 (min 1 v)⟩ }, ?_, ⟨s.muted, max 0 (min 1 v)⟩, ?_, rfl, ?_, ?_, ?_, ?_, ?_, trivial⟩
  · rw [assocLookup_assocInsert, if_pos rfl]
  · rw [assocLookup_assocInsert, if_pos rfl]
  · exact le_max_left 0 _
  · exact max_le (by norm_num) (min_le_left 1 v)
  · intro hv
    have h1 : min 1 v = v := min_eq_right (le_trans (le_of_lt hv) (by norm_num))
    rw [h1]
    exact max_eq_left (le_of_lt hv)
  · intro hv
    have h1 : min 1 v = 1 := min_eq_left (le_of_lt hv)
    rw [h1]
    norm_num
  · intro h0 h1
    have hmin : min 1 v = v := min_eq_right h1
    rw [hmin]
    exact max_eq_right h0

/-- Witness for C7: on a concrete state, a requested volume of `-1/2` is
stored as `0`. -/
theorem c7_witness :
    ∃ c', assocLookup (clientMgrC1.setChannelVolume 1 1 (-1/2)).1.clients 1 = some c' ∧
      ∃ s', assocLookup c'.channelSettings 1 = some s' ∧
        s'.muted = defaultSettings.muted ∧
        0 ≤ s'.volume ∧ s'.volume ≤ 1 ∧
        ((-1/2 : ℚ) < 0 → s'.volume = 0) ∧
        ((1 : ℚ) < -1/2 → s'.volume = 1) ∧
        ((0 : ℚ) ≤ -1/2 → (-1/2 : ℚ) ≤ 1 → s'.volume = -1/2) ∧
        (clientMgrC1.setChannelVolume 1 1 (-1/2)).2 = true :=
  c7_setChannelVolume_clamps clientMgrC1 1 1 (-1/2) aliceNoListen defaultSettings rfl
    (by decide) rfl

/-! ## Claim C6 -/

theorem self_mem_assocInsert {α : Type} (l : List (Nat × α)) (k : Nat) (v : α) :
    (k, v) ∈ assocInsert l k v := by
  induction l with
  | nil => simp [assocInsert]
  | cons e t ih =>
    obtain ⟨ek, ev⟩ := e
    by_cases hek : ek = k
    · simp [assocInsert, hek]
    · simp only [assocInsert, if_neg hek, List.mem_cons]
      exact Or.inr ih

/-- Well-formedness of the channel registry: all keys were issued by the
fresh-id supply and keys are distinct. -/
def ChannelManager.wf (m : ChannelManager) : Prop :=
  (∀ e ∈ m.channels, e.1 < m.nextId) ∧ (m.channels.map Prod.fst).Nodup

theorem hasSystemChannel_iff (m : ChannelManager) :
    hasSystemChannel m = true ↔ ∃ e ∈ m.channels, e.2.name = "System" := by
  simp [hasSystemChannel]

theorem key_lt_of_lookup_isSome {m : ChannelManager} {cid : Nat}
    (hwf : m.wf) (h : (assocLookup m.channels cid).isSome) : cid < m.nextId := by
  rcases List.mem_map.mp ((assocLookup_isSome_iff _ _).mp h) with ⟨e, he, hk⟩
  exact hk ▸ hwf.1 e he

theorem wf_applyChanOp {m : ChannelManager} (op : ChanOp) (h : m.wf) :
    (applyChanOp m op).wf := by
  cases op with
  | create n d =>
    have hfresh : m.nextId ∉ m.channels.map Prod.fst := by
      intro hmem
      rcases List.mem_map.mp hmem with ⟨e, he, hk⟩
      exact absurd (hk ▸ h.1 e he) (lt_irrefl _)
    constructor
    · intro e he
      rcases mem_assocInsert he with h' | h'
      · simp [applyChanOp, ChannelManager.createChannel, h']
      · exact Nat.lt_succ_of_lt (h.1 e h')
    · show ((assocInsert m.channels m.nextId _).map Prod.fst).Nodup
      rw [keys_assocInsert, if_neg hfresh]
      refine h.2.append (List.nodup_singleton _) ?_
      intro a ha hb
      simp only [List.mem_singleton] at hb
      exact hfresh (hb ▸ ha)
  | update cid nm d =>
    show ((m.updateChannel cid nm d).1).wf
    simp only [ChannelManager.updateChannel]
    cases hc : assocLookup m.channels cid with
    | none => exact h
    | some ch =>
      have hkeys : cid ∈ m.channels.map Prod.fst := by
        rw [← assocLookup_isSome_iff, hc]
        rfl
      constructor
      · intro e he
        rcases mem_assocInsert he with h' | h'
        · have hlt : cid < m.nextId :=
            key_lt_of_lookup_isSome h (by rw [hc]; rfl)
          simpa [h'] using hlt
        · exact h.1 e h'
      · show ((assocInsert m.channels cid _).map Prod.fst).Nodup
        rw [keys_assocInsert, if_pos hkeys]
        exact h.2
  | delete cid =>
    show ((m.deleteChannel cid).1).wf
    simp only [ChannelManager.deleteChannel]
    by_cases hsys : (assocLookup m.channels cid).map Channel.name = some "System"
    · rw [if_pos hsys]
      exact h
    · rw [if_neg hsys]
      constructor
      · intro e he
        exact h.1 e (mem_of_mem_assocErase he)
      · show ((assocErase m.channels cid).map Prod.fst).Nodup
        rw [keys_assocErase]
        exact h.2.erase cid

theorem hasSystem_applyChanOp {m : ChannelManager} (op : ChanOp) (hwf : m.wf)
    (hsys : hasSystemChannel m = true) (hre : op.isRename = false) :
    hasSystemChannel (applyChanOp m op) = true := by
  rcases (hasSystemChannel_iff m).mp hsys with ⟨e, he, hname⟩
  cases op with
  | create n d =>
    rw [hasSystemChannel_iff]
    have hfresh : m.nextId ∉ m.channels.map Prod.fst := by
      intro hmem
      rcases List.mem_map.mp hmem with ⟨e', he', hk⟩
      exact absurd (hk ▸ hwf.1 e' he') (lt_irrefl _)
    refine ⟨e, ?_, hname⟩
    show e ∈ assocInsert m.channels m.nextId _
    rw [assocInsert_of_not_mem _ _ _ hfresh]
    exact List.mem_append_left _ he
  | update cid nm d =>
    cases nm with
    | some s => simp [ChanOp.isRename] at hre
    | none =>
      simp only [applyChanOp, ChannelManager.updateChannel]
      cases hc : assocLookup m.channels cid with
      | none => exact (hasSystemChannel_iff m).mpr ⟨e, he, hname⟩
      | some ch =>
        rw [hasSystemChannel_iff]
        by_cases hek : e.1 = cid
        · have hch : ch = e.2 := by
            have h1 : assocLookup m.channels e.1 = some e.2 :=
              assocLookup_eq_of_mem_nodup hwf.2 (by simpa using he)
            rw [hek] at h1
            rw [h1] at hc
            injection hc with hh
            exact hh.symm
          refine ⟨(cid, { ch with name := jsStringOverride ch.name none, description := jsStringOverride ch.description d }), ?_, ?_⟩
          · exact self_mem_assocInsert _ _ _
          · show (jsStringOverride ch.name none) = "System"
            rw [show jsStringOverride ch.name none = ch.name from rfl, hch, hname]
        · refine ⟨e, ?_, hname⟩
          exact (mem_assocInsert_of_ne hek).mpr he
  | delete cid =>
    simp only [applyChanOp, ChannelManager.deleteChannel]
    by_cases hdel : (assocLookup m.channels cid).map Channel.name = some "System"
    · simpa [hdel] using (hasSystemChannel_iff m).mpr ⟨e, he, hname⟩
    · rw [if_neg hdel]
      rw [hasSystemChannel_iff]
      have hek : e.1 ≠ cid := by
        intro hkk
        have h1 : assocLookup m.channels cid = some e.2 := by
          rw [← hkk]
          exact assocLookup_eq_of_mem_nodup hwf.2 (by simpa using he)
        rw [h1] at hdel
        exact hdel (by simp [hname])
      exact ⟨e, mem_assocErase_of_ne hek he, hname⟩

theorem sysInv_foldl (ops : List ChanOp) (hops : ∀ op ∈ ops, op.isRename = false) :
    ∀ m : ChannelManager, m.wf → hasSystemChannel m = true →
      (ops.foldl applyChanOp m).wf ∧ hasSystemChannel (ops.foldl applyChanOp m) = true := by
  induction ops with
  | nil => exact fun m hwf hsys => ⟨hwf, hsys⟩
  | cons op t ih =>
    intro m hwf hsys
    have h1 := wf_applyChanOp op hwf
    have h2 := hasSystem_applyChanOp op hwf hsys (hops op (List.mem_cons_self _ _))
    exact ih (fun o ho => hops o (List.mem_cons_of_mem _ ho)) _ h1 h2

/-- C6 (amended): the registry starts with the System channel, and for every
sequence of create, delete, and description-only update operations a channel
named "System" still exists and at least one channel exists; moreover
`deleteChannel` applied to any channel currently named "System" fails and
leaves the registry unchanged. (The unamended claim fails because an update
may rename the system channel, after which it can be deleted.) -/
theorem c6_system_channel_protected :
    (∀ ops : List ChanOp, (∀ op ∈ ops, op.isRename = false) →
      hasSystemChannel (runChanOps ops) = true ∧
        1 ≤ (runChanOps ops).channels.length) ∧
    (∀ (m : ChannelManager) (cid : Nat),
      (assocLookup m.channels cid).map Channel.name = some "System" →
      m.deleteChannel cid = (m, false)) := by
  constructor
  · intro ops hops
    have hinit_wf : ChannelManager.initial.wf := by
      constructor
      · intro e he
        simp only [ChannelManager.initial, ChannelManager.createChannel, assocInsert] at he
        simp only [List.mem_singleton] at he
        simp [he, ChannelManager.initial, ChannelManager.createChannel]
      · decide
    have hinit_sys : hasSystemChannel ChannelManager.initial = true := by decide
    obtain ⟨_, hsys⟩ := sysInv_foldl ops hops ChannelManager.initial hinit_wf hinit_sys
    refine ⟨hsys, ?_⟩
    rcases (hasSystemChannel_iff _).mp hsys with ⟨e, he, _⟩
    exact List.length_pos.mpr (List.ne_nil_of_mem he)
  · intro m cid h
    simp [ChannelManager.deleteChannel, h]

/-- Counterexample for C6 as stated: renaming the system channel (an
update-metadata operation) and then deleting it empties the registry, so the
invariant does not hold over arbitrary create/update/delete sequences. -/
theorem c6_counterexample :
    hasSystemChannel (runChanOps [ChanOp.update 0 (some "Ops") none, ChanOp.delete 0]) =
      false ∧
    (runChanOps [ChanOp.update 0 (some "Ops") none, ChanOp.delete 0]).channels.length =
      0 := by
  decide

/-- Witness for C6: a concrete non-renaming sequence (create a channel, then
attempt to delete the system channel) keeps the System channel, and deleting
the system channel on the constructor state fails and changes nothing. -/
theorem c6_witness :
    (hasSystemChannel (runChanOps [ChanOp.create "Main" "", ChanOp.delete 0]) = true ∧
      1 ≤ (runChanOps [ChanOp.create "Main" "", ChanOp.delete 0]).channels.length) ∧
    ChannelManager.initial.deleteChannel 0 = (ChannelManager.initial, false) :=
  ⟨c6_system_channel_protected.1 [ChanOp.create "Main" "", ChanOp.delete 0] (by decide),
    c6_system_channel_protected.2 ChannelManager.initial 0 (by decide)⟩

/-! ## Branch equations for the client-registry operations -/

theorem assocLookup_mem {α : Type} {l : List (Nat × α)} {k : Nat} {v : α} :
    assocLookup l k = some v → (k, v) ∈ l := by
  induction l with
  | nil => intro h; simp [assocLookup] at h
  | cons e t ih =>
    obtain ⟨ek, ev⟩ := e
    intro h
    simp only [assocLookup] at h
    by_cases hek : ek = k
    · subst hek
      rw [if_pos rfl] at h
      injection h with h
      subst h
      exact List.mem_cons_self _ _
    · rw [if_neg hek] at h
      exact List.mem_cons_of_mem _ (ih h)

theorem addClientToChannel_of_lookup_none (m : ClientManager) (clientId channelId : Nat)
    (hc : assocLookup m.clients clientId = none) :
    m.addClientToChannel clientId channelId = (m, false) := by
  simp [ClientManager.addClientToChannel, hc]

theorem addClientToChannel_of_mem (m : ClientManager) (clientId channelId : Nat)
    (client : Client) (hc : assocLookup m.clients clientId = some client)
    (hmem : channelId ∈ client.channels) :
    m.addClientToChannel clientId channelId = (m, false) := by
  simp [ClientManager.addClientToChannel, hc, hmem]

theorem addClientToChannel_of_not_mem (m : ClientManager) (clientId channelId : Nat)
    (client : Client) (hc : assocLookup m.clients clientId = some client)
    (hmem : channelId ∉ client.channels) :
    m.addClientToChannel clientId channelId =
      ({ m with clients := assocInsert m.clients clientId { client with
          channels := client.channels ++ [channelId]
          channelSettings :=
            if (assocLookup client.channelSettings channelId).isSome
            then client.channelSettings
            else assocInsert client.channelSettings channelId defaultSettings } }, true) := by
  simp [ClientManager.addClientToChannel, hc, hmem]

theorem removeClientFromChannel_of_lookup_none (m : ClientManager)
    (clientId channelId : Nat) (hc : assocLookup m.clients clientId = none) :
    m.removeClientFromChannel clientId channelId = (m, false) := by
  simp [ClientManager.removeClientFromChannel, hc]

theorem removeClientFromChannel_of_not_mem (m : ClientManager)
    (clientId channelId : Nat) (client : Client)
    (hc : assocLookup m.clients clientId = some client)
    (hmem : channelId ∉ client.channels) :
    m.removeClientFromChannel clientId channelId = (m, false) := by
  simp [ClientManager.removeClientFromChannel, hc, hmem]

theorem removeClientFromChannel_of_mem (m : ClientManager) (clientId channelId : Nat)
    (client : Client) (hc : assocLookup m.clients clientId = some client)
    (hmem : channelId ∈ client.channels) :
    m.removeClientFromChannel clientId channelId =
      ({ m with clients := assocInsert m.clients clientId { client with
          channels := client.channels.erase channelId
          channelSettings := assocErase client.channelSettings channelId } }, true) := by
  simp [ClientManager.removeClientFromChannel, hc, hmem]

theorem authorizeClient_of_pending_none (m : ClientManager) (clientId : Nat)
    (channels : Option (List Nat)) (perms : AuthPerms)
    (hp : assocLookup m.pendingClients clientId = none) :
    m.authorizeClient clientId channels perms = (m, false) := by
  simp [ClientManager.authorizeClient, hp]

theorem authorizeClient_of_pending_some (m : ClientManager) (clientId : Nat)
    (channels : Option (List Nat)) (perms : AuthPerms) (pending : PendingClient)
    (hp : assocLookup m.pendingClients clientId = some pending) :
    m.authorizeClient clientId channels perms =
      ({ m with
          clients := assocInsert m.clients clientId
            { id := clientId
              name := pending.name
              socketId := pending.socketId
              isAdmin := perms.isAdmin.getD false
              channels := channels.getD []
              permissions :=
                { speakToAll := perms.speakToAll.getD false
                  listenToAll := perms.listenToAll.getD false
                  speakTo := perms.speakTo.getD []
                  listenTo := perms.listenTo.getD [] }
              channelSettings := (channels.getD []).foldl
                (fun s ch => assocInsert s ch defaultSettings) [] }
          pendingClients := assocErase m.pendingClients clientId }, true) := by
  simp [ClientManager.authorizeClient, hp]

/-! ## Claim C8 -/

theorem seed_lookup (chs : List Nat) (init : List (Nat × ChannelSettings)) (ch : Nat) :
    assocLookup (chs.foldl (fun s c => assocInsert s c defaultSettings) init) ch =
      if ch ∈ chs then some defaultSettings else assocLookup init ch := by
  induction chs generalizing init with
  | nil => simp
  | cons c t ih =>
    rw [List.foldl_cons, ih]
    by_cases hct : ch ∈ t
    · simp [hct]
    · rw [if_neg hct, assocLookup_assocInsert]
      by_cases hcc : c = ch
      · simp [hcc]
      · have hnotin : ch ∉ c :: t := by
          intro hmem
          rcases List.mem_cons.mp hmem with h | h
          · exact hcc h.symm
          · exact hct h
        rw [if_neg hcc, if_neg hnotin]

theorem seed_keys_aux (chs : List Nat) :
    ∀ init : List (Nat × ChannelSettings), chs.Nodup →
      (∀ k ∈ chs, k ∉ init.map Prod.fst) →
      ((chs.foldl (fun s c => assocInsert s c defaultSettings) init).map Prod.fst) =
        init.map Prod.fst ++ chs := by
  induction chs with
  | nil => intro init _ _; simp
  | cons c t ih =>
    intro init hnd hdisj
    rw [List.foldl_cons]
    have hc : c ∉ init.map Prod.fst := hdisj c (List.mem_cons_self _ _)
    have hkeys : (assocInsert init c defaultSettings).map Prod.fst =
        init.map Prod.fst ++ [c] := by
      rw [keys_assocInsert, if_neg hc]
    rw [ih (assocInsert init c defaultSettings) (List.Nodup.of_cons hnd) ?_]
    · rw [hkeys, List.append_assoc, List.singleton_append]
    · intro k hk
      rw [hkeys]
      intro hmem
      rcases List.mem_append.mp hmem with h' | h'
      · exact hdisj k (List.mem_cons_of_mem _ hk) h'
      · rw [List.mem_singleton] at h'
        subst h'
        exact (List.nodup_cons.mp hnd).1 hk

theorem seed_keys (chs : List Nat) (hnd : chs.Nodup) :
    ((chs.foldl (fun s c => assocInsert s c defaultSettings) []).map Prod.fst) = chs := by
  have h := seed_keys_aux chs [] hnd (by simp)
  simpa using h

/-- Per-client well-formedness: no duplicate channel memberships, and the
per-channel user settings are keyed exactly by the membership list. -/
def Client.wellFormed (c : Client) : Prop :=
  c.channels.Nodup ∧ c.channelSettings.map Prod.fst = c.channels

instance (c : Client) : Decidable c.wellFormed := by
  unfold Client.wellFormed
  infer_instance

/-- Registry-wide well-formedness: every active client is well-formed. -/
def ClientManager.wellFormed (m : ClientManager) : Prop :=
  ∀ e ∈ m.clients, e.2.wellFormed

instance (m : ClientManager) : Decidable m.wellFormed := by
  unfold ClientManager.wellFormed
  infer_instance

/-- C8: for well-formed registries the settings domain equals the membership
set (the lookup/membership equivalence), the invariant is established by
`authorizeClient` (whose fresh client carries the assigned channels, each
seeded with default settings muted=false, volume=1), and it is preserved by
`addClientToChannel` and `removeClientFromChannel`. -/
theorem c8_settings_domain_invariant (m : ClientManager) (clientId channelId : Nat)
    (channels : Option (List Nat)) (perms : AuthPerms)
    (hwf : m.wellFormed) (hnd : (channels.getD []).Nodup) :
    ((m.authorizeClient clientId channels perms).1.wellFormed ∧
      (∀ p, assocLookup m.pendingClients clientId = some p →
        ∃ c, assocLookup (m.authorizeClient clientId channels perms).1.clients clientId =
            some c ∧
          c.channels = channels.getD [] ∧
          ∀ ch ∈ c.channels, assocLookup c.channelSettings ch = some ⟨false, 1⟩)) ∧
    (m.addClientToChannel clientId channelId).1.wellFormed ∧
    (m.removeClientFromChannel clientId channelId).1.wellFormed ∧
    (∀ c, assocLookup m.clients clientId = some c →
      ∀ ch, (assocLookup c.channelSettings ch).isSome ↔ ch ∈ c.channels) := by
  refine ⟨⟨?_, ?_⟩, ?_, ?_, ?_⟩
  · -- authorizeClient preserves well-formedness
    cases hp : assocLookup m.pendingClients clientId with
    | none => rw [authorizeClient_of_pending_none m clientId channels perms hp]; exact hwf
    | some pending =>
      rw [authorizeClient_of_pending_some m clientId channels perms pending hp]
      intro e he
      rcases mem_assocInsert he with h' | h'
      · subst h'
        exact ⟨hnd, seed_keys _ hnd⟩
      · exact hwf e h'
  · -- authorizeClient seeds default settings over the assigned channels
    intro p hp
    rw [authorizeClient_of_pending_some m clientId channels perms p hp]
    refine ⟨{ id := clientId, name := p.name, socketId := p.socketId, isAdmin := perms.isAdmin.getD false, channels := channels.getD [], permissions := { speakToAll := perms.speakToAll.getD false, listenToAll := perms.listenToAll.getD false, speakTo := perms.speakTo.getD [], listenTo := perms.listenTo.getD [] }, channelSettings := (channels.getD []).foldl (fun s ch => assocInsert s ch defaultSettings) [] }, ?_, rfl, ?_⟩
    · show assocLookup (assocInsert m.clients clientId _) clientId = _
      rw [assocLookup_assocInsert, if_pos rfl]
    · intro ch hch
      show assocLookup ((channels.getD []).foldl
        (fun s c => assocInsert s c defaultSettings) []) ch = some ⟨false, 1⟩
      rw [seed_lookup, if_pos hch]
      rfl
  · -- addClientToChannel preserves well-formedness
    cases hc : assocLookup m.clients clientId with
    | none => rw [addClientToChannel_of_lookup_none m clientId channelId hc]; exact hwf
    | some client =>
      by_cases hmem : channelId ∈ client.channels
      · rw [addClientToChannel_of_mem m clientId channelId client hc hmem]
        exact hwf
      · rw [addClientToChannel_of_not_mem m clientId channelId client hc hmem]
        have hcwf : client.wellFormed := hwf _ (assocLookup_mem hc)
        have hkey : channelId ∉ client.channelSettings.map Prod.fst := by
          rw [hcwf.2]
          exact hmem
        have hset : (assocLookup client.channelSettings channelId).isSome = false := by
          rw [← Bool.not_eq_true, assocLookup_isSome_iff]
          exact hkey
        intro e he
        rcases mem_assocInsert he with h' | h'
        · subst h'
          constructor
          · show (client.channels ++ [channelId]).Nodup
            refine hcwf.1.append (List.nodup_singleton _) ?_
            intro a ha hb
            rw [List.mem_singleton] at hb
            exact hmem (hb ▸ ha)
          · show (if (assocLookup client.channelSettings channelId).isSome
                then client.channelSettings
                else assocInsert client.channelSettings channelId defaultSettings).map
                  Prod.fst = client.channels ++ [channelId]
            rw [hset]
            simp only [Bool.false_eq_true, if_false]
            rw [keys_assocInsert, if_neg hkey, hcwf.2]
        · exact hwf e h'
  · -- removeClientFromChannel preserves well-formedness
    cases hc : assocLookup m.clients clientId with
    | none =>
      rw [removeClientFromChannel_of_lookup_none m clientId channelId hc]
      exact hwf
    | some client =>
      by_cases hmem : channelId ∈ client.channels
      · rw [removeClientFromChannel_of_mem m clientId channelId client hc hmem]
        have hcwf : client.wellFormed := hwf _ (assocLookup_mem hc)
        intro e he
        rcases mem_assocInsert he with h' | h'
        · subst h'
          constructor
          · exact hcwf.1.erase channelId
          · show (assocErase client.channelSettings channelId).map Prod.fst =
              client.channels.erase channelId
            rw [keys_assocErase, hcwf.2]
        · exact hwf e h'
      · rw [removeClientFromChannel_of_not_mem m clientId channelId client hc hmem]
        exact hwf
  · -- the settings domain coincides with the membership set
    intro c hc ch
    have hcwf : c.wellFormed := hwf _ (assocLookup_mem hc)
    rw [assocLookup_isSome_iff, hcwf.2]

/-- A registry holding one pending client, used to exercise authorization. -/
def pendingMgr : ClientManager := ⟨[], [(5, ⟨5, "carol", some 30⟩)]⟩

def carolPerms : AuthPerms :=
  ⟨some false, some false, some false, some [(1, true)], some [(1, true)]⟩

/-- Witness for C8 at a concrete pending client authorized into channels
[0, 1]. -/
theorem c8_witness :
    ((pendingMgr.authorizeClient 5 (some [0, 1]) carolPerms).1.wellFormed ∧
      (∀ p, assocLookup pendingMgr.pendingClients 5 = some p →
        ∃ c, assocLookup (pendingMgr.authorizeClient 5 (some [0, 1]) carolPerms).1.clients
            5 = some c ∧
          c.channels = (some [0, 1] : Option (List Nat)).getD [] ∧
          ∀ ch ∈ c.channels, assocLookup c.channelSettings ch = some ⟨false, 1⟩)) ∧
    (pendingMgr.addClientToChannel 5 0).1.wellFormed ∧
    (pendingMgr.removeClientFromChannel 5 0).1.wellFormed ∧
    (∀ c, assocLookup pendingMgr.clients 5 = some c →
      ∀ ch, (assocLookup c.channelSettings ch).isSome ↔ ch ∈ c.channels) :=
  c8_settings_domain_invariant pendingMgr 5 0 (some [0, 1]) carolPerms (by decide)
    (by decide)

/-! ## Claim C9 -/

theorem erase_append_singleton {l : List Nat} {a : Nat} (h : a ∉ l) :
    (l ++ [a]).erase a = l := by
  rw [List.erase_append_right _ h, List.erase_cons_head, List.append_nil]

theorem perms_of_addClientToChannel (m : ClientManager) (clientId channelId x : Nat) :
    (assocLookup (m.addClientToChannel clientId channelId).1.clients x).map
        Client.permissions =
      (assocLookup m.clients x).map Client.permissions := by
  cases hc : assocLookup m.clients clientId with
  | none => rw [addClientToChannel_of_lookup_none m clientId channelId hc]
  | some client =>
    by_cases hmem : channelId ∈ client.channels
    · rw [addClientToChannel_of_mem m clientId channelId client hc hmem]
    · rw [addClientToChannel_of_not_mem m clientId channelId client hc hmem]
      show (assocLookup (assocInsert m.clients clientId _) x).map Client.permissions = _
      rw [assocLookup_assocInsert]
      by_cases hx : clientId = x
      · subst hx
        rw [if_pos rfl, hc]
        rfl
      · rw [if_neg hx]

theorem perms_of_removeClientFromChannel (m : ClientManager)
    (clientId channelId x : Nat) :
    (assocLookup (m.removeClientFromChannel clientId channelId).1.clients x).map
        Client.permissions =
      (assocLookup m.clients x).map Client.permissions := by
  cases hc : assocLookup m.clients clientId with
  | none => rw [removeClientFromChannel_of_lookup_none m clientId channelId hc]
  | some client =>
    by_cases hmem : channelId ∈ client.channels
    · rw [removeClientFromChannel_of_mem m clientId channelId client hc hmem]
      show (assocLookup (assocInsert m.clients clientId _) x).map Client.permissions = _
      rw [assocLookup_assocInsert]
      by_cases hx : clientId = x
      · subst hx
        rw [if_pos rfl, hc]
        rfl
      · rw [if_neg hx]
    · rw [removeClientFromChannel_of_not_mem m clientId channelId client hc hmem]

/-- C9 (amended): when the client is not already a member of the channel (and,
per the C8 domain invariant, holds no settings entry for it),
`addToChannel(c, C)` followed by `removeFromChannel(c, C)` restores the whole
registry state exactly — permission matrix, membership set, and settings —
and the permission matrix of every client is restored by the pair
unconditionally. (The unamended claim fails when the client is already a
member: the add is a no-op and the remove then strips the membership.) -/
theorem c9_add_remove_roundtrip :
    (∀ (m : ClientManager) (clientId channelId : Nat) (c : Client),
      assocLookup m.clients clientId = some c →
      channelId ∉ c.channels →
      assocLookup c.channelSettings channelId = none →
      ((m.addClientToChannel clientId channelId).1.removeClientFromChannel clientId
        channelId).1 = m) ∧
    (∀ (m : ClientManager) (clientId channelId x : Nat),
      (assocLookup
          (((m.addClientToChannel clientId channelId).1.removeClientFromChannel clientId
            channelId).1.clients) x).map Client.permissions =
        (assocLookup m.clients x).map Client.permissions) := by
  constructor
  · intro m clientId channelId c hc hmem hset
    rw [addClientToChannel_of_not_mem m clientId channelId c hc hmem]
    rw [hset]
    simp only [Option.isSome_none, Bool.false_eq_true, if_false]
    have hlook : assocLookup
        (assocInsert m.clients clientId { c with
          channels := c.channels ++ [channelId]
          channelSettings := assocInsert c.channelSettings channelId defaultSettings })
        clientId =
        some { c with
          channels := c.channels ++ [channelId]
          channelSettings := assocInsert c.channelSettings channelId defaultSettings } := by
      rw [assocLookup_assocInsert, if_pos rfl]
    rw [removeClientFromChannel_of_mem _ clientId channelId _ hlook
      (by exact List.mem_append_right _ (List.mem_singleton_self _))]
    rw [erase_append_singleton hmem, assocErase_assocInsert_of_none _ _ _ hset]
    rw [assocInsert_assocInsert]
    rw [assocInsert_self _ _ _ hc]
  · intro m clientId channelId x
    rw [perms_of_removeClientFromChannel, perms_of_addClientToChannel]

/-- Counterexample for C9 as stated: for a client already a member of the
channel, the add is a no-op and the remove strips the membership, so the
membership set is not restored. -/
theorem c9_counterexample :
    ((assocLookup (((clientMgrC1.addClientToChannel 1 1).1.removeClientFromChannel 1
        1).1.clients) 1).map Client.channels = some []) ∧
    ((assocLookup clientMgrC1.clients 1).map Client.channels = some [1]) := by
  decide

/-- Witness for C9 on a concrete client that is not a member of channel 2. -/
theorem c9_witness :
    (((clientMgrC2.addClientToChannel 2 2).1.removeClientFromChannel 2 2).1 =
      clientMgrC2) ∧
    ((assocLookup (((clientMgrC2.addClientToChannel 2 0).1.removeClientFromChannel 2
        0).1.clients) 2).map Client.permissions =
      (assocLookup clientMgrC2.clients 2).map Client.permissions) :=
  ⟨c9_add_remove_roundtrip.1 clientMgrC2 2 2 bobNoSpeak rfl (by decide) rfl,
    c9_add_remove_roundtrip.2 clientMgrC2 2 0 2⟩

/-! ## Claim C10 -/

theorem assocLookup_mergeAssoc {α : Type} (patch : List (Nat × α)) :
    ∀ old : List (Nat × α), (patch.map Prod.fst).Nodup → ∀ k,
      assocLookup (mergeAssoc old patch) k =
        match assocLookup patch k with
        | some v => some v
        | none => assocLookup old k := by
  induction patch with
  | nil => intro old _ k; simp [mergeAssoc, assocLookup]
  | cons e t ih =>
    intro old hnd k
    obtain ⟨ek, ev⟩ := e
    simp only [List.map_cons, List.nodup_cons] at hnd
    have hstep : mergeAssoc old ((ek, ev) :: t) = mergeAssoc (assocInsert old ek ev) t := by
      simp [mergeAssoc]
    rw [hstep, ih (assocInsert old ek ev) hnd.2 k]
    cases hk : assocLookup t k with
    | some v =>
      have hkk : ek ≠ k := by
        intro hh
        subst hh
        exact hnd.1 ((assocLookup_isSome_iff t ek).mp (by rw [hk]; rfl))
      simp only [assocLookup, if_neg hkk, hk]
    | none =>
      rw [assocLookup_assocInsert]
      by_cases hkk : ek = k
      · subst hkk
        simp [assocLookup, hk]
      · simp only [assocLookup, if_neg hkk, hk]

theorem applyPermPatch_speakToAll (perms : Permissions) (p : PermPatch) :
    (applyPermPatch perms p).speakToAll = p.speakToAll.getD perms.speakToAll := by
  rcases p with ⟨psa, pla, pst, plt⟩
  cases psa <;> cases pla <;> cases pst <;> cases plt <;> rfl

theorem applyPermPatch_listenToAll (perms : Permissions) (p : PermPatch) :
    (applyPermPatch perms p).listenToAll = p.listenToAll.getD perms.listenToAll := by
  rcases p with ⟨psa, pla, pst, plt⟩
  cases psa <;> cases pla <;> cases pst <;> cases plt <;> rfl

theorem applyPermPatch_speakTo (perms : Permissions) (p : PermPatch) :
    (applyPermPatch perms p).speakTo =
      match p.speakTo with
      | none => perms.speakTo
      | some pm => mergeAssoc perms.speakTo pm := by
  rcases p with ⟨psa, pla, pst, plt⟩
  cases psa <;> cases pla <;> cases pst <;> cases plt <;> rfl

theorem applyPermPatch_listenTo (perms : Permissions) (p : PermPatch) :
    (applyPermPatch perms p).listenTo =
      match p.listenTo with
      | none => perms.listenTo
      | some pm => mergeAssoc perms.listenTo pm := by
  rcases p with ⟨psa, pla, pst, plt⟩
  cases psa <;> cases pla <;> cases pst <;> cases plt <;> rfl

/-- C10: `updateClientPermissions` changes only the permission fields named in
the patch: the global flags are overwritten exactly when present, the
per-channel maps are merged key-wise (patch keys override, all other channel
keys keep their previous value), and every other client field — and every
other client — is untouched. -/
theorem c10_updateClientPermissions_frame (m : ClientManager) (clientId : Nat)
    (p : PermPatch) (c : Client)
    (hc : assocLookup m.clients clientId = some c)
    (hs : ((p.speakTo.getD []).map Prod.fst).Nodup)
    (hl : ((p.listenTo.getD []).map Prod.fst).Nodup) :
    ∃ c', assocLookup (m.updateClientPermissions clientId p).1.clients clientId = some c' ∧
      c'.id = c.id ∧ c'.name = c.name ∧ c'.socketId = c.socketId ∧
      c'.isAdmin = c.isAdmin ∧ c'.channels = c.channels ∧
      c'.channelSettings = c.channelSettings ∧
      c'.permissions.speakToAll = p.speakToAll.getD c.permissions.speakToAll ∧
      c'.permissions.listenToAll = p.listenToAll.getD c.permissions.listenToAll ∧
      (∀ ch, assocLookup c'.permissions.speakTo ch =
        match p.speakTo with
        | none => assocLookup c.permissions.speakTo ch
        | some pm =>
          match assocLookup pm ch with
          | some b => some b
          | none => assocLookup c.permissions.speakTo ch) ∧
      (∀ ch, assocLookup c'.permissions.listenTo ch =
        match p.listenTo with
        | none => assocLookup c.permissions.listenTo ch
        | some pm =>
          match assocLookup pm ch with
          | some b => some b
          | none => assocLookup c.permissions.listenTo ch) ∧
      (∀ x, x ≠ clientId →
        assocLookup (m.updateClientPermissions clientId p).1.clients x =
          assocLookup m.clients x) ∧
      (m.updateClientPermissions clientId p).1.pendingClients = m.pendingClients ∧
      (m.updateClientPermissions clientId p).2 = true := by
  have hupd : m.updateClientPermissions clientId p =
      ({ m with clients := assocInsert m.clients clientId { c with permissions := applyPermPatch c.permissions p } }, true) := by
    simp [ClientManager.updateClientPermissions, hc]
  rw [hupd]
  refine ⟨{ c with permissions := applyPermPatch c.permissions p }, ?_, rfl, rfl, rfl, rfl, rfl, rfl, ?_, ?_, ?_, ?_, ?_, rfl, rfl⟩
  · show assocLookup (assocInsert m.clients clientId _) clientId = _
    rw [assocLookup_assocInsert, if_pos rfl]
  · exact applyPermPatch_speakToAll c.permissions p
  · exact applyPermPatch_listenToAll c.permissions p
  · intro ch
    show assocLookup (applyPermPatch c.permissions p).speakTo ch = _
    rw [applyPermPatch_speakTo]
    cases hps : p.speakTo with
    | none => rfl
    | some pm =>
      rw [hps] at hs
      rw [assocLookup_mergeAssoc pm c.permissions.speakTo (by simpa using hs) ch]
      cases hpm : assocLookup pm ch <;> simp [hpm]
  · intro ch
    show assocLookup (applyPermPatch c.permissions p).listenTo ch = _
    rw [applyPermPatch_listenTo]
    cases hps : p.listenTo with
    | none => rfl
    | some pm =>
      rw [hps] at hl
      rw [assocLookup_mergeAssoc pm c.permissions.listenTo (by simpa using hl) ch]
      cases hpm : assocLookup pm ch <;> simp [hpm]
  · intro x hx
    show assocLookup (assocInsert m.clients clientId _) x = _
    rw [assocLookup_assocInsert, if_neg (Ne.symm hx)]

def bobPatch : PermPatch := ⟨some true, none, some [(1, false)], none⟩

/-- Witness for C10 at a concrete client and patch. -/
theorem c10_witness :
    ∃ c', assocLookup (clientMgrC2.updateClientPermissions 2 bobPatch).1.clients 2 =
        some c' ∧
      c'.id = bobNoSpeak.id ∧ c'.name = bobNoSpeak.name ∧
      c'.socketId = bobNoSpeak.socketId ∧
      c'.isAdmin = bobNoSpeak.isAdmin ∧ c'.channels = bobNoSpeak.channels ∧
      c'.channelSettings = bobNoSpeak.channelSettings ∧
      c'.permissions.speakToAll =
        bobPatch.speakToAll.getD bobNoSpeak.permissions.speakToAll ∧
      c'.permissions.listenToAll =
        bobPatch.listenToAll.getD bobNoSpeak.permissions.listenToAll ∧
      (∀ ch, assocLookup c'.permissions.speakTo ch =
        match bobPatch.speakTo with
        | none => assocLookup bobNoSpeak.permissions.speakTo ch
        | some pm =>
          match assocLookup pm ch with
          | some b => some b
          | none => assocLookup bobNoSpeak.permissions.speakTo ch) ∧
      (∀ ch, assocLookup c'.permissions.listenTo ch =
        match bobPatch.listenTo with
        | none => assocLookup bobNoSpeak.permissions.listenTo ch
        | some pm =>
          match assocLookup pm ch with
          | some b => some b
          | none => assocLookup bobNoSpeak.permissions.listenTo ch) ∧
      (∀ x, x ≠ 2 →
        assocLookup (clientMgrC2.updateClientPermissions 2 bobPatch).1.clients x =
          assocLookup clientMgrC2.clients x) ∧
      (clientMgrC2.updateClientPermissions 2 bobPatch).1.pendingClients =
        clientMgrC2.pendingClients ∧
      (clientMgrC2.updateClientPermissions 2 bobPatch).2 = true :=
  c10_updateClientPermissions_frame clientMgrC2 2 bobPatch bobNoSpeak rfl (by decide)
    (by decide)

/-! ## Handler characterizations (socketHandler.js) -/

theorem setAdd_idem (l : List Nat) (x : Nat) : setAdd (setAdd l x) x = setAdd l x := by
  by_cases h : x ∈ l
  · simp [setAdd, h]
  · simp only [setAdd, if_neg h]
    rw [if_pos (List.mem_append_right _ (List.mem_singleton_self _))]

theorem mem_setAdd_self (l : List Nat) (x : Nat) : x ∈ setAdd l x := by
  by_cases h : x ∈ l
  · rw [setAdd, if_pos h]
    exact h
  · simp only [setAdd, if_neg h]
    exact List.mem_append_right _ (List.mem_singleton_self _)

/-- The channel update performed per producer registration. -/
def addProd (pid : Nat) (ch : Channel) : Channel :=
  { ch with producers := setAdd ch.producers pid }

theorem addProducerToChannel_lookup (cm : ChannelManager) (channelId producerId x : Nat) :
    assocLookup ((cm.addProducerToChannel channelId producerId).1).channels x =
      if channelId = x then
        (assocLookup cm.channels x).map (addProd producerId)
      else assocLookup cm.channels x := by
  cases hc : assocLookup cm.channels channelId with
  | none =>
    simp only [ChannelManager.addProducerToChannel, hc]
    by_cases hx : channelId = x
    · subst hx
      rw [if_pos rfl, hc]
      rfl
    · rw [if_neg hx]
  | some ch =>
    simp only [ChannelManager.addProducerToChannel, hc]
    show assocLookup (assocInsert cm.channels channelId _) x = _
    rw [assocLookup_assocInsert]
    by_cases hx : channelId = x
    · subst hx
      rw [if_pos rfl, if_pos rfl, hc]
      rfl
    · rw [if_neg hx, if_neg hx]

theorem addProducerToChannel_nextId (cm : ChannelManager) (channelId producerId : Nat) :
    ((cm.addProducerToChannel channelId producerId).1).nextId = cm.nextId := by
  cases hc : assocLookup cm.channels channelId with
  | none => simp [ChannelManager.addProducerToChannel, hc]
  | some ch => simp [ChannelManager.addProducerToChannel, hc]

theorem foldl_addProducer_lookup (cond : Nat → Bool) (pid : Nat) (L : List Nat) :
    ∀ (cm : ChannelManager) (x : Nat),
      assocLookup ((L.foldl (fun cm' c =>
          if cond c then (cm'.addProducerToChannel c pid).1 else cm') cm).channels) x =
        if x ∈ L ∧ cond x then
          (assocLookup cm.channels x).map (addProd pid)
        else assocLookup cm.channels x := by
  have hmapidem : ∀ o : Option Channel,
      (o.map (addProd pid)).map (addProd pid) = o.map (addProd pid) := by
    intro o
    cases o with
    | none => rfl
    | some ch => simp [addProd, setAdd_idem]
  induction L with
  | nil => intro cm x; simp
  | cons c t ih =>
    intro cm x
    rw [List.foldl_cons]
    rw [ih (if cond c then (cm.addProducerToChannel c pid).1 else cm) x]
    have hstep : assocLookup ((if cond c then (cm.addProducerToChannel c pid).1
        else cm).channels) x =
        if cond c ∧ c = x then (assocLookup cm.channels x).map (addProd pid)
        else assocLookup cm.channels x := by
      by_cases hc : cond c
      · rw [if_pos hc, addProducerToChannel_lookup]
        by_cases hcx : c = x
        · rw [if_pos hcx, if_pos ⟨hc, hcx⟩]
        · rw [if_neg hcx, if_neg (fun h => hcx h.2)]
      · rw [if_neg hc, if_neg (fun h => hc h.1)]
    rw [hstep]
    by_cases hcx : c = x
    · subst hcx
      by_cases hc : cond c
      · by_cases hct : c ∈ t
        · simp [hct, hc, hmapidem]
        · simp [hct, hc, hmapidem]
      · by_cases hct : c ∈ t
        · simp [hct, hc]
        · simp [hct, hc]
    · have hmem : x ∈ c :: t ↔ x ∈ t := by
        constructor
        · intro h
          rcases List.mem_cons.mp h with h | h
          · exact absurd h.symm hcx
          · exact h
        · exact List.mem_cons_of_mem _
      by_cases hxt : x ∈ t <;> by_cases hcondx : cond x <;>
        simp [hxt, hcondx, hmem, hcx]

theorem produceHandler_snd (st : ServerState) (socketId transportId freshProducerId : Nat) :
    (produceHandler st socketId transportId freshProducerId).2 =
      if transportId ∈ st.media.transports then .ok freshProducerId
      else .error .transportNotFound := by
  by_cases ht : transportId ∈ st.media.transports
  · rw [if_pos ht]
    simp only [produceHandler, MediaState.produce, if_pos ht]
    cases hgc : ClientManager.getClientBySocketId st.clientMgr socketId with
    | none => simp [hgc]
    | some client => simp [hgc]
  · rw [if_neg ht]
    simp [produceHandler, MediaState.produce, ht]

theorem consumeHandler_eq (st : ServerState) (socketId transportId producerId : Nat)
    (canConsume : Bool) (freshConsumerId : Nat) :
    consumeHandler st socketId transportId producerId canConsume freshConsumerId =
      if transportId ∉ st.media.transports then (st, .error .transportNotFound)
      else if producerId ∉ st.media.producers then (st, .error .producerNotFound)
      else if !canConsume then (st, .error .cannotConsume)
      else ({ st with media := { st.media with
          consumers := ⟨freshConsumerId, producerId, transportId⟩ :: st.media.consumers } },
        .ok ⟨freshConsumerId, producerId, transportId⟩) := by
  by_cases ht : transportId ∈ st.media.transports
  · by_cases hp : producerId ∈ st.media.producers
    · cases canConsume with
      | false => simp [consumeHandler, MediaState.consume, ht, hp]
      | true => simp [consumeHandler, MediaState.consume, ht, hp]
    · simp [consumeHandler, MediaState.consume, ht, hp]
  · simp [consumeHandler, MediaState.consume, ht]

/-! ## Claim C1 -/

/-- C1 (amended): the consume handler performs no permission evaluation: a
consumer for (producer, session) is created iff the named transport and
producer exist in the media worker and the router codec check passes; on
failure no state changes and no consumer is created; on success only the
consumer list grows; and the outcome is entirely independent of the client
and channel registries — in particular of membership and listen rights. -/
theorem c1_consume_no_permission_check (st : ServerState)
    (socketId transportId producerId freshConsumerId : Nat) (canConsume : Bool) :
    ((consumeHandler st socketId transportId producerId canConsume
        freshConsumerId).2 = .ok ⟨freshConsumerId, producerId, transportId⟩ ↔
      transportId ∈ st.media.transports ∧ producerId ∈ st.media.producers ∧
        canConsume = true) ∧
    (∀ e, (consumeHandler st socketId transportId producerId canConsume
        freshConsumerId).2 = .error e →
      (consumeHandler st socketId transportId producerId canConsume
        freshConsumerId).1 = st) ∧
    ((consumeHandler st socketId transportId producerId canConsume
        freshConsumerId).2 = .ok ⟨freshConsumerId, producerId, transportId⟩ →
      (consumeHandler st socketId transportId producerId canConsume
          freshConsumerId).1.media.consumers =
        ⟨freshConsumerId, producerId, transportId⟩ :: st.media.consumers ∧
      (consumeHandler st socketId transportId producerId canConsume
        freshConsumerId).1.clientMgr = st.clientMgr ∧
      (consumeHandler st socketId transportId producerId canConsume
        freshConsumerId).1.channelMgr = st.channelMgr) ∧
    (∀ (cm : ClientManager) (chm : ChannelManager),
      (consumeHandler { st with clientMgr := cm, channelMgr := chm } socketId
        transportId producerId canConsume freshConsumerId).2 =
      (consumeHandler st socketId transportId producerId canConsume
        freshConsumerId).2) := by
  rw [consumeHandler_eq]
  by_cases ht : transportId ∈ st.media.transports
  · by_cases hp : producerId ∈ st.media.producers
    · cases canConsume with
      | true =>
        refine ⟨by simp [ht, hp], by simp [ht, hp], by simp [ht, hp], ?_⟩
        intro cm chm
        rw [consumeHandler_eq]
        simp [ht, hp]
      | false =>
        refine ⟨by simp [ht, hp], by simp [ht, hp], by simp [ht, hp], ?_⟩
        intro cm chm
        rw [consumeHandler_eq]
        simp [ht, hp]
    · refine ⟨by simp [ht, hp], by simp [ht, hp], by simp [ht, hp], ?_⟩
      intro cm chm
      rw [consumeHandler_eq]
      simp [ht, hp]
  · refine ⟨by simp [ht], by simp [ht], by simp [ht], ?_⟩
    intro cm chm
    rw [consumeHandler_eq]
    simp [ht]

/-- Counterexample for C1 as stated: on a concrete state, the requesting
session's client has listen permission in no channel of the registry, yet
the consume request succeeds and the consumer exists. -/
theorem c1_counterexample :
    ((stConsume.channelMgr.channels.map Prod.fst).all
      (fun ch => !(stConsume.clientMgr.canListen 1 ch)) = true) ∧
    ((consumeHandler stConsume 10 7 3 true 99).2 = .ok ⟨99, 3, 7⟩) ∧
    ((⟨99, 3, 7⟩ : MConsumer) ∈
      (consumeHandler stConsume 10 7 3 true 99).1.media.consumers) := by
  decide

/-- Witness for C1 on the concrete consume state. -/
theorem c1_witness :
    ((consumeHandler stConsume 10 7 3 true 99).2 = .ok ⟨99, 3, 7⟩) ∧
    ((consumeHandler stConsume 10 7 3 true 99).1.media.consumers =
      ⟨99, 3, 7⟩ :: stConsume.media.consumers) :=
  ⟨(c1_consume_no_permission_check stConsume 10 7 3 99 true).1.mpr
      ⟨by decide, by decide, rfl⟩,
    ((c1_consume_no_permission_check stConsume 10 7 3 99 true).2.2.1
      ((c1_consume_no_permission_check stConsume 10 7 3 99 true).1.mpr
        ⟨by decide, by decide, rfl⟩)).1⟩

/-! ## Claim C2 -/

/-- C2 (amended): the produce handler creates the producer unconditionally as
soon as the named transport exists — before and independently of any
permission check — and then registers the new producer id into exactly those
existing channels of the requesting client in which the client has speak
permission; when the transport is missing the request fails with NotFound
and nothing changes; the client registry is never modified. -/
theorem c2_produce_registration (st : ServerState)
    (socketId transportId freshProducerId : Nat) :
    (transportId ∉ st.media.transports →
      produceHandler st socketId transportId freshProducerId =
        (st, .error .transportNotFound)) ∧
    (transportId ∈ st.media.transports →
      (produceHandler st socketId transportId freshProducerId).2 =
        .ok freshProducerId ∧
      freshProducerId ∈
        (produceHandler st socketId transportId freshProducerId).1.media.producers ∧
      (produceHandler st socketId transportId freshProducerId).1.clientMgr =
        st.clientMgr ∧
      (match st.clientMgr.getClientBySocketId socketId with
       | none =>
          (produceHandler st socketId transportId freshProducerId).1.channelMgr =
            st.channelMgr
       | some client => ∀ chId,
          assocLookup (produceHandler st socketId transportId
              freshProducerId).1.channelMgr.channels chId =
            if chId ∈ client.channels ∧ st.clientMgr.canSpeak client.id chId then
              (assocLookup st.channelMgr.channels chId).map (addProd freshProducerId)
            else assocLookup st.channelMgr.channels chId)) := by
  constructor
  · intro ht
    simp [produceHandler, MediaState.produce, ht]
  · intro ht
    refine ⟨?_, ?_, ?_, ?_⟩
    · rw [produceHandler_snd, if_pos ht]
    · simp only [produceHandler, MediaState.produce, if_pos ht]
      cases hgc : ClientManager.getClientBySocketId st.clientMgr socketId with
      | none =>
        simp only [hgc]
        exact mem_setAdd_self _ _
      | some client =>
        simp only [hgc, registerProducer]
        exact mem_setAdd_self _ _
    · simp only [produceHandler, MediaState.produce, if_pos ht]
      cases hgc : ClientManager.getClientBySocketId st.clientMgr socketId with
      | none => simp [hgc]
      | some client => simp [hgc, registerProducer]
    · cases hgc : ClientManager.getClientBySocketId st.clientMgr socketId with
      | none =>
        simp only [produceHandler, MediaState.produce, if_pos ht, hgc]
      | some client =>
        intro chId
        simp only [produceHandler, MediaState.produce, if_pos ht, hgc,
          registerProducer]
        exact foldl_addProducer_lookup
          (fun channelId => st.clientMgr.canSpeak client.id channelId)
          freshProducerId client.channels st.channelMgr chId

/-- Counterexample for C2 as stated: on a concrete state, the requesting
client has speak permission in no channel of the registry, yet the produce
request succeeds and the producer exists afterwards. -/
theorem c2_counterexample :
    ((stProduce.channelMgr.channels.map Prod.fst).all
      (fun ch => !(stProduce.clientMgr.canSpeak 2 ch)) = true) ∧
    ((produceHandler stProduce 20 7 42).2 = .ok 42) ∧
    (42 ∈ (produceHandler stProduce 20 7 42).1.media.producers) := by
  decide

/-- Witness for C2 on the concrete produce state. -/
theorem c2_witness :
    ((produceHandler stProduce 20 7 42).2 = .ok 42) ∧
    (42 ∈ (produceHandler stProduce 20 7 42).1.media.producers) :=
  ⟨((c2_produce_registration stProduce 20 7 42).2 (by decide)).1,
    ((c2_produce_registration stProduce 20 7 42).2 (by decide)).2.1⟩

/-! ## Claim C4 -/

/-- C4 (amended): no session-state gating exists for the media requests:
`getRtpCapabilities` and `createTransport` succeed for every session and
state, `connectTransport`, `produce` and `consume` never answer Unauthorized
(they fail only for media-level reasons), and the produce/consume outcomes
are identical whatever the client and channel registries — hence identical
for NEW, PENDING, and ACTIVE sessions. Only admin operations such as
`createChannel` answer Unauthorized. -/
theorem c4_no_session_gating (st : ServerState) (cm : ClientManager)
    (chm : ChannelManager)
    (socketId transportId producerId freshProducerId freshConsumerId
      freshTransportId : Nat) (canConsume : Bool) :
    ((rtpCapabilitiesHandler st).2 = .ok ()) ∧
    ((createTransportHandler st freshTransportId).2 = .ok freshTransportId) ∧
    ((produceHandler st socketId transportId freshProducerId).2 ≠
      .error .unauthorized) ∧
    ((consumeHandler st socketId transportId producerId canConsume
      freshConsumerId).2 ≠ .error .unauthorized) ∧
    ((connectTransportHandler st transportId).2 ≠ .error .unauthorized) ∧
    ((produceHandler { st with clientMgr := cm, channelMgr := chm } socketId
        transportId freshProducerId).2 =
      (produceHandler st socketId transportId freshProducerId).2) ∧
    ((consumeHandler { st with clientMgr := cm, channelMgr := chm } socketId
        transportId producerId canConsume freshConsumerId).2 =
      (consumeHandler st socketId transportId producerId canConsume
        freshConsumerId).2) := by
  refine ⟨rfl, rfl, ?_, ?_, ?_, ?_, ?_⟩
  · rw [produceHandler_snd]
    by_cases ht : transportId ∈ st.media.transports
    · simp [ht]
    · simp [ht]
  · rw [consumeHandler_eq]
    by_cases ht : transportId ∈ st.media.transports
    · by_cases hp : producerId ∈ st.media.producers
      · cases canConsume <;> simp [ht, hp]
      · simp [ht, hp]
    · simp [ht]
  · show (st.media.connectWebRtcTransport transportId) ≠ .error .unauthorized
    rw [MediaState.connectWebRtcTransport]
    by_cases ht : transportId ∈ st.media.transports
    · simp [ht]
    · simp [ht]
  · rw [produceHandler_snd, produceHandler_snd]
  · rw [consumeHandler_eq, consumeHandler_eq]
    by_cases ht : transportId ∈ st.media.transports
    · by_cases hp : producerId ∈ st.media.producers
      · cases canConsume <;> simp [ht, hp]
      · simp [ht, hp]
    · simp [ht]

/-- Witness for C4 at a concrete new session. -/
theorem c4_witness :
    ((rtpCapabilitiesHandler stNewSession).2 = .ok ()) ∧
    ((createTransportHandler stNewSession 8).2 = .ok 8) ∧
    ((produceHandler stNewSession 99 7 42).2 ≠ .error .unauthorized) ∧
    ((consumeHandler stNewSession 99 7 3 true 43).2 ≠ .error .unauthorized) ∧
    ((connectTransportHandler stNewSession 7).2 ≠ .error .unauthorized) ∧
    ((produceHandler { stNewSession with clientMgr := ClientManager.empty, channelMgr := ChannelManager.initial } 99 7 42).2 =
      (produceHandler stNewSession 99 7 42).2) ∧
    ((consumeHandler { stNewSession with clientMgr := ClientManager.empty, channelMgr := ChannelManager.initial } 99 7 3 true 43).2 =
      (consumeHandler stNewSession 99 7 3 true 43).2) :=
  c4_no_session_gating stNewSession ClientManager.empty ChannelManager.initial 99 7 3
    42 43 8 true

/-- Counterexample for C4 as stated: a brand-new session (its socket matches
no client and no pending entry, so it never authenticated) successfully
calls produce (with a side effect), createTransport, and getRtpCapabilities
instead of receiving Unauthorized. -/
theorem c4_counterexample :
    (stNewSession.clientMgr.clients = [] ∧
      stNewSession.clientMgr.pendingClients = []) ∧
    ((produceHandler stNewSession 99 7 42).2 = .ok 42) ∧
    ((produceHandler stNewSession 99 7 42).1.media.producers = [42]) ∧
    ((createTransportHandler stNewSession 8).2 = .ok 8) ∧
    ((rtpCapabilitiesHandler stNewSession).2 = .ok ()) := by
  decide

end WhisperWire
